import Mathlib

/-!
Shallow embedding of `py_utils/mssql_db.py` (pcs2112/py-utils), a thin helper
layer over pyodbc: a process-wide lazily created connection, query execution,
stored-procedure calls, and conversion of driver rows into dicts with
snake_case column names.  Pure functions of the module are translated into
Lean functions; the module-level mutable state (`this._config`,
`this._database`) becomes explicit state passing; Python exceptions become
`Except` values.
-/

set_option autoImplicit false

namespace MssqlDb

/-- Python runtime values, as far as this module manipulates them:
`None`, ints, strings and booleans.  (Cell values coming back from the
driver can be richer, but every claim only needs these.) -/
inductive PyVal where
  | none
  | int (i : Int)
  | str (s : String)
  | bool (b : Bool)
  deriving DecidableEq, Repr

/-- Python `str(v)` for the values above. -/
def pyStr : PyVal → String
  | PyVal.none => "None"
  | PyVal.int i => toString i
  | PyVal.str s => s
  | PyVal.bool b => if b then "True" else "False"

/-- Python truthiness (`if v:`) for the values above. -/
def pyTruthy : PyVal → Bool
  | PyVal.none => false
  | PyVal.int i => i != 0
  | PyVal.str s => s != ""
  | PyVal.bool b => b

/-- ASCII range `[A-Z]` of the regexes in `normalize_column_name`
(codepoints 65-90). -/
def isUpperA (c : Char) : Bool := decide (65 ≤ c.toNat ∧ c.toNat ≤ 90)

/-- ASCII range `[a-z]` (codepoints 97-122). -/
def isLowerA (c : Char) : Bool := decide (97 ≤ c.toNat ∧ c.toNat ≤ 122)

/-- ASCII class `[a-z0-9]` of the second regex. -/
def isLowerDigitA (c : Char) : Bool :=
  isLowerA c || decide (48 ≤ c.toNat ∧ c.toNat ≤ 57)

/-- Python `str.lower()` on one character, for the ASCII letters this module
meets (`.lower()` shifts `A`-`Z` by 32 and keeps other characters). -/
def lowerChar (c : Char) : Char :=
  if isUpperA c then Char.ofNat (c.toNat + 32) else c

/-- Python `str.lower()`. -/
def lowerStr (s : String) : String := ⟨s.data.map lowerChar⟩

/-- Head of the list is an ASCII lowercase letter (the `[a-z]+` part of the
first regex needs at least one lowercase letter after the capital). -/
def firstIsLowerA : List Char → Bool
  | [] => false
  | c :: _ => isLowerA c

/-- Scanner of `re.sub('(.)([A-Z][a-z]+)', r'\1_\2', name)`: at each position
try to match one character (any but a newline, the `.`), an ASCII capital and
a greedy non-empty run of ASCII lowercase; on a match insert `_` after the
first character and resume scanning after the match (non-overlapping), else
move one position right.  `fuel` only bounds the number of scan steps (each
step consumes at least one character), so `fuel = length` is always enough;
when fuel runs out the remaining characters are emitted unchanged. -/
def sub1Go : Nat → List Char → List Char
  | 0, l => l
  | _ + 1, [] => []
  | _ + 1, [c] => [c]
  | fuel + 1, c :: u :: rest =>
    if c != '\n' && isUpperA u && firstIsLowerA rest then
      c :: '_' :: u :: (rest.takeWhile isLowerA ++ sub1Go fuel (rest.dropWhile isLowerA))
    else
      c :: sub1Go fuel (u :: rest)

/-- First substitution of `normalize_column_name`. -/
def sub1 (l : List Char) : List Char := sub1Go l.length l

/-- Second substitution `re.sub('([a-z0-9])([A-Z])', r'\1_\2', s1)`: insert `_` between an ASCII
lowercase letter or digit and an ASCII capital; after a match scanning resumes
after the capital (non-overlapping). -/
def sub2 : List Char → List Char
  | [] => []
  | [c] => [c]
  | c :: u :: rest =>
    if isLowerDigitA c && isUpperA u then
      c :: '_' :: u :: sub2 rest
    else
      c :: sub2 (u :: rest)

/-- Python `normalize_column_name(name)`: the two regex substitutions followed by
`.lower()`. -/
def normalize_column_name (name : String) : String :=
  ⟨(sub2 (sub1 name.data)).map lowerChar⟩

/-- Python `get_column_names(result_set_description)`: for each description entry the
column name is `description[0]` (modelled as the entry itself); an empty
(falsy) name is replaced by `COLUMN_<index>`; every name is normalized. -/
def get_column_names (result_set_description : List String) : List String :=
  result_set_description.enum.map fun p =>
    normalize_column_name (if p.2 = "" then "COLUMN_" ++ toString p.1 else p.2)

example : normalize_column_name "UserID" = "user_id" := by decide
example : normalize_column_name "Name" = "name" := by decide
example : normalize_column_name "COLUMN_0" = "column_0" := by decide
example : normalize_column_name "getHTTPResponse" = "get_http_response" := by decide
example : get_column_names ["", "UserID"] = ["column_0", "user_id"] := by decide

/-! ## Python exceptions raised by the module -/

/-- The exceptions this module can raise: `TypeError` from subscripting the
`None` configuration, `KeyError` from a missing dict key, `IndexError` from an
out-of-range list index, and `pyodbc.ProgrammingError` with its message. -/
inductive PyErr where
  | typeErrorNoneNotSubscriptable
  | keyError (k : String)
  | indexError
  | programmingError (msg : String)
  deriving DecidableEq, Repr

/-- Is a call result a raised `pyodbc.ProgrammingError`? -/
def isProgrammingError {α : Type} : Except PyErr α → Bool
  | Except.error (PyErr.programmingError _) => true
  | _ => false

/-! ## Python dicts (insertion-ordered association lists) -/

/-- A Python dict with string keys, as the module builds them: entries in
insertion order, assigning to an existing key overwrites the value in
place. -/
abbrev Dict := List (String × PyVal)

/-- Assignment `d[k] = v` on a Python dict: overwrite in place when the key exists,
else append. -/
def dictInsert (d : Dict) (k : String) (v : PyVal) : Dict :=
  if (List.any d fun p => p.1 == k) then
    List.map (fun p => if p.1 == k then (k, v) else p) d
  else
    d ++ [(k, v)]

/-- Python `dict(pairs)`: insert the pairs left to right. -/
def dictOfPairs (ps : List (String × PyVal)) : Dict :=
  ps.foldl (fun d p => dictInsert d p.1 p.2) []

/-- Python `k in d` (key membership). -/
def dictHasKey (d : Dict) (k : String) : Bool :=
  List.any d fun p => p.1 == k

/-- Lookup backing Python `d[k]`: the value of the first entry with key `k`. -/
def dictGet? (d : Dict) (k : String) : Option PyVal :=
  (List.find? (fun p => p.1 == k) d).map Prod.snd

/-- Python `len(d)` of a dict. -/
def dictLen (d : Dict) : Nat := List.length d

/-! ## Result mapping -/

/-- Python `result_as_dict(schema, row)`:
`dict(zip([field.lower() for field in schema], row))`. -/
def result_as_dict (schema : List String) (row : List PyVal) : Dict :=
  dictOfPairs (List.zip (schema.map lowerStr) row)

/-- Python `result_set_as_dicts(schema, rows)`: the same dict comprehension applied
to each row. -/
def result_set_as_dicts (schema : List String) (rows : List (List PyVal)) :
    List Dict :=
  rows.map fun row => dictOfPairs (List.zip (schema.map lowerStr) row)

/-! ## Connection lifecycle (`this._config`, `this._database`) -/

/-- The dict `init_db` stores in `this._config`: exactly the six keys. -/
structure Config where
  DB_DRIVER : PyVal
  DB_SERVER : PyVal
  DB_NAME : PyVal
  DB_USER : PyVal
  DB_PASSWORD : PyVal
  DB_TRUSTED_CONNECTION : PyVal
  deriving DecidableEq, Repr

/-- The module-level mutable state: `this._config`, `this._database`.
A live pyodbc connection is identified by an opaque handle (a `Nat`);
`nextHandle` models the driver handing out a fresh handle on each
`pyodbc.connect`, so distinct connect calls yield distinct handles. -/
structure DBState where
  _config : Option Config
  _database : Option Nat
  nextHandle : Nat
  deriving DecidableEq, Repr

/-- Subscript `config[k]` of the caller-supplied configuration mapping:
raises `KeyError` when the key is absent. -/
def cfgSub (config : String → Option PyVal) (k : String) : Except PyErr PyVal :=
  match config k with
  | some v => Except.ok v
  | Option.none => Except.error (PyErr.keyError k)

/-- Python `init_db(config)`: builds the six-key dict from the given mapping by
subscripting each required key (raising `KeyError` on a missing one) and
stores it in `this._config`. -/
def init_db (config : String → Option PyVal) (s : DBState) :
    Except PyErr DBState := do
  let drv ← cfgSub config "DB_DRIVER"
  let srv ← cfgSub config "DB_SERVER"
  let name ← cfgSub config "DB_NAME"
  let user ← cfgSub config "DB_USER"
  let pwd ← cfgSub config "DB_PASSWORD"
  let trusted ← cfgSub config "DB_TRUSTED_CONNECTION"
  Except.ok { s with _config := some ⟨drv, srv, name, user, pwd, trusted⟩ }

/-- Python `get_db()`: returns the current handle when one exists; otherwise reads
the configuration (subscripting `None` raises `TypeError` when `init_db` was
never called) and connects, storing and returning a fresh handle.  Both the
trusted and the user/password branch connect the same way apart from the
connection string. -/
def get_db (s : DBState) : Except PyErr (Nat × DBState) :=
  match s._database with
  | some db => Except.ok (db, s)
  | Option.none =>
    match s._config with
    | Option.none => Except.error PyErr.typeErrorNoneNotSubscriptable
    | some c =>
      let h := s.nextHandle
      let s' := { s with _database := some h, nextHandle := h + 1 }
      if pyTruthy c.DB_TRUSTED_CONNECTION then
        let _cnxn_str := "Driver=" ++ pyStr c.DB_DRIVER ++ ";Server="
          ++ pyStr c.DB_SERVER ++ ";DATABASE=" ++ pyStr c.DB_NAME
          ++ ";Trusted_Connection=yes;"
        Except.ok (h, s')
      else
        Except.ok (h, s')

/-- Python `close()`: closes and clears the handle when one exists, else no-op. -/
def close (s : DBState) : DBState :=
  match s._database with
  | some _ => { s with _database := Option.none }
  | Option.none => s

/-! ## Query execution -/

/-- Python `fetch_rows(sql, in_args)`, modelled on the driver response: the cursor
description (one string per column, the `description[0]` entries) and the
fetched rows.  Returns `some []` for the empty tuple `()` when no row came
back, otherwise `some` of the mapped records; `none` would be Python `None`,
which the function never returns. -/
def fetch_rows (description : List String) (rows : List (List PyVal)) :
    Option (List Dict) :=
  let column_names := get_column_names description
  if rows.length < 1 then some []
  else some (result_set_as_dicts column_names rows)

/-! ## Stored procedures -/

/-- A stored-procedure result set, one dict per record (`as_dict=True`). -/
abbrev ResultSet := List Dict

/-- Python `s.rstrip(', ')`: strip every trailing comma or space. -/
def rstripCommaSpace (s : String) : String :=
  ⟨(s.data.reverse.dropWhile fun c => c == ',' || c == ' ').reverse⟩

/-- One iteration of the `for key in in_args` loop of `execute_sp`: append
`@key = ?, ` to the SQL text, convert a non-`None` value to its string form
(`str(in_param)`), and append it to the positional parameter list. -/
def execute_sp_step (acc : String × List PyVal) (kv : String × PyVal) :
    String × List PyVal :=
  let sql := acc.1 ++ "@" ++ kv.1 ++ " = ?, "
  let in_param := if kv.2 = PyVal.none then kv.2 else PyVal.str (pyStr kv.2)
  (sql, acc.2 ++ [in_param])

/-- The pure head of `execute_sp(sp_name, in_args, out_arg)`: the SQL text and
positional parameter list it builds before touching the cursor.  `in_args` is
the dict of parameters in its (insertion) iteration order; each non-`None`
value is replaced by `str(value)` before being appended to the parameter
list.  `out_arg` is truthy only when it is a non-empty string; a truthy
`out_arg` is first replaced by its lowercase form, and when `out_arg` is not
`None` a trailing `SELECT` of the declared variable is appended. -/
def execute_sp_build (sp_name : String) (in_args : List (String × PyVal))
    (out_arg : Option String) : String × List PyVal :=
  let oa := match out_arg with
    | some o => if o != "" then some (lowerStr o) else some o
    | Option.none => Option.none
  let sql0 := match oa with
    | some o =>
      if o != "" then
        "DECLARE @" ++ o ++ " INTEGER;" ++ "EXEC @" ++ o ++ " = " ++ sp_name ++ " "
      else
        "EXEC " ++ sp_name ++ " "
    | Option.none => "EXEC " ++ sp_name ++ " "
  let built := in_args.foldl execute_sp_step (sql0, ([] : List PyVal))
  let sql1 := rstripCommaSpace built.1 ++ ";"
  let sql2 := match oa with
    | some o => sql1 ++ "SELECT @" ++ o ++ " AS " ++ o ++ ";"
    | Option.none => sql1
  (sql2, built.2)

/-- Python `get_sp_result_set(results, index, out_arg)`: `False` (here `some` of
`Option.none` would be wrong, so the sentinel is `Except.ok Option.none`) when
`results` is empty; when there is exactly one result set and `out_arg` is
truthy, Python evaluates `out_arg in results[0][0]` — an `IndexError` when the
single result set is empty, else the sentinel when the key is present;
otherwise `results[index]`, an `IndexError` when out of range. -/
def get_sp_result_set (results : List ResultSet) (index : Nat)
    (out_arg : Option String) : Except PyErr (Option ResultSet) :=
  if results.length < 1 then Except.ok Option.none
  else
    let marker : Except PyErr Bool :=
      if results.length == 1 && (match out_arg with
          | some o => o != ""
          | Option.none => false) then
        match results with
        | [] => Except.error PyErr.indexError
        | first :: _ =>
          match first with
          | [] => Except.error PyErr.indexError
          | rec0 :: _ =>
            Except.ok (dictHasKey rec0 (match out_arg with
              | some o => o
              | Option.none => ""))
      else Except.ok false
    match marker with
    | Except.error e => Except.error e
    | Except.ok true => Except.ok Option.none
    | Except.ok false =>
      match results.get? index with
      | some rs => Except.ok (some rs)
      | Option.none => Except.error PyErr.indexError

/-- Python `get_out_arg(results, out_arg)`: lowercases `out_arg`; raises
`ProgrammingError` when `results` is empty; otherwise Python evaluates
`out_arg not in results[-1][0]` — an `IndexError` when the last result set is
empty, the `ProgrammingError` when the key is missing from its first record —
and finally returns `results[-1][0][out_arg]`. -/
def get_out_arg (results : List ResultSet) (out_arg : String) :
    Except PyErr PyVal :=
  let oa := lowerStr out_arg
  let msg := "The out argument \"" ++ oa
    ++ "\" was not captured from call to the stored procedure."
  if results.length < 1 then Except.error (PyErr.programmingError msg)
  else
    match results.getLast? with
    | Option.none => Except.error PyErr.indexError
    | some lastSet =>
      match lastSet with
      | [] => Except.error PyErr.indexError
      | rec0 :: _ =>
        if dictHasKey rec0 oa then
          match dictGet? rec0 oa with
          | some v => Except.ok v
          | Option.none => Except.error (PyErr.keyError oa)
        else Except.error (PyErr.programmingError msg)

example :
    get_out_arg [[dictOfPairs [("rowcount", PyVal.int 5)]]] "RowCount"
      = Except.ok (PyVal.int 5) := rfl
example : get_out_arg [[]] "RowCount" = Except.error PyErr.indexError := rfl
example :
    get_sp_result_set [[]] 0 (some "x") = Except.error PyErr.indexError := rfl

/-! ## Claims -/

/-- C4: `normalize_column_name("UserID")` is `"user_id"`,
`normalize_column_name("Name")` is `"name"`, and an empty column name used as
the first column gets the 0-based placeholder `COLUMN_0` before
normalization, so `get_column_names` maps it to
`normalize_column_name("column_0")`. -/
theorem claim_C4_normalize_examples :
    normalize_column_name "UserID" = "user_id" ∧
    normalize_column_name "Name" = "name" ∧
    get_column_names [""] = [normalize_column_name "column_0"] :=
  ⟨by decide, by decide, by decide⟩

/-- C7: for every cursor description and row list, `fetch_rows` returns the
empty sequence when zero rows match, and its result is never Python `None`. -/
theorem claim_C7_fetch_rows_never_none (description : List String)
    (rows : List (List PyVal)) :
    fetch_rows description [] = some [] ∧
    fetch_rows description rows ≠ Option.none := by
  constructor
  · simp [fetch_rows]
  · unfold fetch_rows
    dsimp only
    split <;> simp

theorem dictOfPairs_append (ps : List (String × PyVal)) (p : String × PyVal) :
    dictOfPairs (ps ++ [p]) = dictInsert (dictOfPairs ps) p.1 p.2 := by
  simp [dictOfPairs, List.foldl_append]

theorem dictLen_dictInsert (d : Dict) (k : String) (v : PyVal) :
    dictLen (dictInsert d k v)
      = if dictHasKey d k then dictLen d else dictLen d + 1 := by
  unfold dictInsert dictHasKey dictLen
  split <;> simp_all

theorem dictLen_dictOfPairs_le (ps : List (String × PyVal)) :
    dictLen (dictOfPairs ps) ≤ ps.length := by
  induction ps using List.reverseRecOn with
  | nil => simp [dictOfPairs, dictLen]
  | append_singleton ps p ih =>
    rw [dictOfPairs_append, dictLen_dictInsert]
    split <;> simp <;> omega

theorem zip_eq_zip_take {α β : Type} :
    ∀ (l1 : List α) (l2 : List β),
      List.zip l1 l2 = List.zip (l1.take l2.length) (l2.take l1.length)
  | [], l2 => by simp
  | a :: l1, [] => by simp
  | a :: l1, b :: l2 => by
    simp only [List.zip_cons_cons, List.length_cons, List.take_succ_cons]
    rw [← zip_eq_zip_take l1 l2]

/-- C8: `result_as_dict` builds the record from `zip`, so a schema and row of
unequal lengths are silently truncated to the shorter of the two (no error is
raised), and `result_set_as_dicts` applies the same conversion row by row. -/
theorem claim_C8_zip_truncation (schema : List String) (row : List PyVal)
    (rows : List (List PyVal)) :
    result_as_dict schema row
      = result_as_dict (schema.take row.length) (row.take schema.length) ∧
    dictLen (result_as_dict schema row) ≤ min schema.length row.length ∧
    result_set_as_dicts schema rows = rows.map (result_as_dict schema) := by
  refine ⟨?_, ?_, rfl⟩
  · unfold result_as_dict
    rw [zip_eq_zip_take (schema.map lowerStr) row]
    rw [← List.map_take]
    simp [List.length_map]
  · calc dictLen (result_as_dict schema row)
        ≤ (List.zip (schema.map lowerStr) row).length :=
          dictLen_dictOfPairs_le _
      _ ≤ min schema.length row.length := by simp [List.length_zip]

theorem execute_sp_foldl_params (in_args : List (String × PyVal)) :
    ∀ (sql : String) (ps : List PyVal),
      (in_args.foldl execute_sp_step (sql, ps)).2
        = ps ++ in_args.map (fun kv =>
            if kv.2 = PyVal.none then PyVal.none else PyVal.str (pyStr kv.2)) := by
  induction in_args with
  | nil => simp
  | cons kv tl ih =>
    intro sql ps
    simp [execute_sp_step, ih, List.append_assoc]
    split <;> simp_all

/-- C6: the positional parameter list `execute_sp` binds is the values of
`in_args` in iteration order, each non-`None` value replaced by its string
form and each `None` passed through unchanged. -/
theorem claim_C6_in_params (sp_name : String) (in_args : List (String × PyVal))
    (out_arg : Option String) :
    (execute_sp_build sp_name in_args out_arg).2
      = in_args.map (fun kv =>
          if kv.2 = PyVal.none then PyVal.none else PyVal.str (pyStr kv.2)) := by
  unfold execute_sp_build
  dsimp only
  rw [execute_sp_foldl_params]
  simp

/-- C2: starting from any state whose live handle (if any) was handed out by
the driver (`db < nextHandle`), a successful `get_db` is idempotent — the
second call returns the identical handle and state — and after `close()` the
next `get_db` connects again, storing a handle distinct from the previous
one. -/
theorem claim_C2_connection_reuse (s : DBState) (c : Config)
    (hinv : ∀ db, s._database = some db → db < s.nextHandle)
    (hcfg : s._config = some c)
    (h1 : Nat) (s1 : DBState) (hget : get_db s = Except.ok (h1, s1)) :
    get_db s1 = Except.ok (h1, s1) ∧
    get_db (close s1) = Except.ok (s1.nextHandle,
      { s1 with _database := some s1.nextHandle,
                nextHandle := s1.nextHandle + 1 }) ∧
    s1.nextHandle ≠ h1 := by
  unfold get_db at hget
  cases hdb : s._database with
  | some db =>
    rw [hdb] at hget
    simp only [Except.ok.injEq, Prod.mk.injEq] at hget
    obtain ⟨e1, e2⟩ := hget
    subst e1
    subst e2
    refine ⟨?_, ?_, ?_⟩
    · unfold get_db
      rw [hdb]
    · unfold close get_db
      rw [hdb]
      dsimp only
      rw [hcfg]
      dsimp only
      split <;> rfl
    · exact (hinv _ hdb).ne'
  | none =>
    rw [hdb, hcfg] at hget
    dsimp only at hget
    split at hget <;>
      (simp only [Except.ok.injEq, Prod.mk.injEq] at hget
       obtain ⟨e1, e2⟩ := hget
       subst e1
       subst e2
       refine ⟨rfl, ?_, Nat.succ_ne_self s.nextHandle⟩
       unfold close get_db
       dsimp only
       split <;> rfl)

/-- C10: when the caller-supplied configuration has all six required keys,
`init_db` succeeds and stores a configuration, and `get_db` on any state
holding a configuration succeeds (it never fails while reading the
configuration); calling `get_db` with no stored configuration and no live
handle fails with the `TypeError` of subscripting `None`, not with a clean
configuration error. -/
theorem claim_C10_config_precondition (config : String → Option PyVal)
    (s : DBState)
    (hkeys : ∀ k, k ∈ ["DB_DRIVER", "DB_SERVER", "DB_NAME", "DB_USER",
      "DB_PASSWORD", "DB_TRUSTED_CONNECTION"] → config k ≠ Option.none) :
    (∃ s', init_db config s = Except.ok s' ∧ s'._config ≠ Option.none) ∧
    (∀ t : DBState, t._config ≠ Option.none → ∃ p, get_db t = Except.ok p) ∧
    (∀ t : DBState, t._config = Option.none → t._database = Option.none →
      get_db t = Except.error PyErr.typeErrorNoneNotSubscriptable) := by
  refine ⟨?_, ?_, ?_⟩
  · have hval : ∀ k, k ∈ ["DB_DRIVER", "DB_SERVER", "DB_NAME", "DB_USER",
        "DB_PASSWORD", "DB_TRUSTED_CONNECTION"] →
        ∃ v, config k = some v := by
      intro k hk
      cases hck : config k with
      | none => exact absurd hck (hkeys k hk)
      | some v => exact ⟨v, rfl⟩
    obtain ⟨v1, h1⟩ := hval "DB_DRIVER" (by simp)
    obtain ⟨v2, h2⟩ := hval "DB_SERVER" (by simp)
    obtain ⟨v3, h3⟩ := hval "DB_NAME" (by simp)
    obtain ⟨v4, h4⟩ := hval "DB_USER" (by simp)
    obtain ⟨v5, h5⟩ := hval "DB_PASSWORD" (by simp)
    obtain ⟨v6, h6⟩ := hval "DB_TRUSTED_CONNECTION" (by simp)
    refine ⟨{ s with _config := some ⟨v1, v2, v3, v4, v5, v6⟩ }, ?_, by simp⟩
    unfold init_db cfgSub
    rw [h1, h2, h3, h4, h5, h6]
    rfl
  · intro t hcfg
    cases hdb : t._database with
    | some db => exact ⟨(db, t), by unfold get_db; rw [hdb]⟩
    | none =>
      cases hc : t._config with
      | none => exact absurd hc hcfg
      | some c =>
        refine ⟨(t.nextHandle,
          { t with _database := some t.nextHandle,
                   nextHandle := t.nextHandle + 1 }), ?_⟩
        unfold get_db
        rw [hdb]
        dsimp only
        rw [hc]
        dsimp only
        split <;> rfl
  · intro t hc hdb
    unfold get_db
    rw [hdb]
    dsimp only
    rw [hc]

/-- Witness for C2 at a concrete state: a live handle `0` handed out below
`nextHandle = 1`, with a stored configuration of six `None` values. -/
theorem claim_C2_connection_reuse_witness :
    get_db ⟨some ⟨PyVal.none, PyVal.none, PyVal.none, PyVal.none, PyVal.none,
        PyVal.none⟩, some 0, 1⟩
      = Except.ok ((0 : Nat), ⟨some ⟨PyVal.none, PyVal.none, PyVal.none,
          PyVal.none, PyVal.none, PyVal.none⟩, some 0, 1⟩) ∧
    get_db (close ⟨some ⟨PyVal.none, PyVal.none, PyVal.none, PyVal.none,
        PyVal.none, PyVal.none⟩, some 0, 1⟩)
      = Except.ok ((1 : Nat), ⟨some ⟨PyVal.none, PyVal.none, PyVal.none,
          PyVal.none, PyVal.none, PyVal.none⟩, some 1, 2⟩) ∧
    (1 : Nat) ≠ 0 :=
  claim_C2_connection_reuse
    ⟨some ⟨PyVal.none, PyVal.none, PyVal.none, PyVal.none, PyVal.none,
      PyVal.none⟩, Option.none, 0⟩
    ⟨PyVal.none, PyVal.none, PyVal.none, PyVal.none, PyVal.none, PyVal.none⟩
    (by intro db h; exact absurd h (by simp)) rfl 0
    ⟨some ⟨PyVal.none, PyVal.none, PyVal.none, PyVal.none, PyVal.none,
      PyVal.none⟩, some 0, 1⟩ rfl

/-- Witness for C10 at a concrete configuration mapping (every key present)
and the fresh state with neither configuration nor handle. -/
theorem claim_C10_config_precondition_witness :
    (∃ s', init_db (fun _ => some PyVal.none) ⟨Option.none, Option.none, 0⟩
        = Except.ok s' ∧ s'._config ≠ Option.none) ∧
    get_db ⟨Option.none, Option.none, 0⟩
      = Except.error PyErr.typeErrorNoneNotSubscriptable :=
  ⟨(claim_C10_config_precondition (fun _ => some PyVal.none)
      ⟨Option.none, Option.none, 0⟩ (by intro k hk; simp)).1,
   (claim_C10_config_precondition (fun _ => some PyVal.none)
      ⟨Option.none, Option.none, 0⟩ (by intro k hk; simp)).2.2
     ⟨Option.none, Option.none, 0⟩ rfl rfl⟩

theorem dictHasKey_of_dictGet? (d : Dict) (k : String) (v : PyVal)
    (h : dictGet? d k = some v) : dictHasKey d k = true := by
  unfold dictGet? at h
  unfold dictHasKey
  cases hfind : List.find? (fun p => p.1 == k) d with
  | none => rw [hfind] at h; simp at h
  | some x =>
    have hx := List.find?_some hfind
    have hmem := List.mem_of_find?_eq_some hfind
    rw [List.any_eq_true]
    exact ⟨x, hmem, hx⟩

/-- C1 counterexample: with a last result set that is empty, `get_out_arg`
raises `IndexError` from `results[-1][0]`, not the "out argument not
captured" `ProgrammingError` the claim promises for every last result set
lacking the key. -/
theorem claim_C1_counterexample :
    get_out_arg ([[]] : List ResultSet) "RowCount"
      = Except.error PyErr.indexError ∧
    isProgrammingError (get_out_arg ([[]] : List ResultSet) "RowCount")
      = false :=
  ⟨rfl, rfl⟩

/-- C1 (amended): when the last result set's first record contains the
lowercased out argument as a key, `get_out_arg` returns that value; when
`results` is empty, or when the last result set is non-empty and its first
record lacks the key, it fails with the explicit "out argument not captured"
`ProgrammingError` naming the (lowercased) parameter; but when the last
result set is empty it fails with `IndexError` instead. -/
theorem claim_C1_amended_out_arg (results : List ResultSet)
    (out_arg : String) :
    (results = [] → get_out_arg results out_arg
      = Except.error (PyErr.programmingError ("The out argument \""
          ++ lowerStr out_arg
          ++ "\" was not captured from call to the stored procedure."))) ∧
    (∀ lastSet, results.getLast? = some lastSet →
      (lastSet = [] →
        get_out_arg results out_arg = Except.error PyErr.indexError) ∧
      (∀ rec0 rest, lastSet = rec0 :: rest →
        (∀ v, dictGet? rec0 (lowerStr out_arg) = some v →
          get_out_arg results out_arg = Except.ok v) ∧
        (dictHasKey rec0 (lowerStr out_arg) = false →
          get_out_arg results out_arg
            = Except.error (PyErr.programmingError ("The out argument \""
                ++ lowerStr out_arg
                ++ "\" was not captured from call to the stored procedure."))))) := by
  constructor
  · intro h
    subst h
    rfl
  · intro lastSet hlast
    have hne : results ≠ [] := by
      intro h
      subst h
      simp at hlast
    have hlen : ¬ results.length < 1 := by
      cases results with
      | nil => exact absurd rfl hne
      | cons a l => simp
    constructor
    · intro h
      subst h
      unfold get_out_arg
      rw [if_neg hlen, hlast]
    · intro rec0 rest hrec
      subst hrec
      constructor
      · intro v hv
        unfold get_out_arg
        rw [if_neg hlen, hlast]
        dsimp only
        rw [dictHasKey_of_dictGet? rec0 (lowerStr out_arg) v hv, if_pos rfl,
          hv]
      · intro hkey
        unfold get_out_arg
        rw [if_neg hlen, hlast]
        dsimp only
        rw [hkey]
        rfl

/-- Witness for the amended C1 at the spec's own example: out argument
`RowCount`, last result set `[{"rowcount": 5}]`. -/
theorem claim_C1_amended_out_arg_witness :
    get_out_arg [[[("rowcount", PyVal.int 5)]]] "RowCount"
      = Except.ok (PyVal.int 5) :=
  (((claim_C1_amended_out_arg [[[("rowcount", PyVal.int 5)]]] "RowCount").2
      [[("rowcount", PyVal.int 5)]] rfl).2 [("rowcount", PyVal.int 5)] []
      rfl).1 (PyVal.int 5) rfl

/-- C3 counterexample: with a single, empty result set and a truthy out
argument, `get_sp_result_set` raises `IndexError` from `results[0][0]`
instead of returning `results[index]` (`= []`) as the claim states (the empty
set's "first record" cannot contain the key, so the claim's sentinel case
does not apply). -/
theorem claim_C3_counterexample :
    get_sp_result_set ([[]] : List ResultSet) 0 (some "x")
      = Except.error PyErr.indexError ∧
    Except.error PyErr.indexError
      ≠ (Except.ok (some ([] : ResultSet)) : Except PyErr (Option ResultSet)) :=
  ⟨rfl, by simp⟩

/-- C3 (amended): `get_sp_result_set` returns the `False` sentinel when
`results` is empty; when there is exactly one result set and the out argument
is a non-empty string, Python inspects the set's first record — raising
`IndexError` when the single set is empty, returning the sentinel when the
record contains the out argument as a key, and returning `results[index]`
otherwise; in all remaining cases (two or more sets, or no truthy out
argument) it returns `results[index]`. -/
theorem claim_C3_amended_result_set (results : List ResultSet) (index : Nat)
    (out_arg : Option String) :
    (results = [] →
      get_sp_result_set results index out_arg = Except.ok Option.none) ∧
    (∀ first, results = [first] → ∀ o, out_arg = some o → o ≠ "" →
      (first = [] →
        get_sp_result_set results index out_arg
          = Except.error PyErr.indexError) ∧
      (∀ rec0 recs, first = rec0 :: recs →
        (dictHasKey rec0 o = true →
          get_sp_result_set results index out_arg = Except.ok Option.none) ∧
        (dictHasKey rec0 o = false → ∀ h : index < results.length,
          get_sp_result_set results index out_arg
            = Except.ok (some (results.get ⟨index, h⟩))))) ∧
    ((2 ≤ results.length ∨ out_arg = Option.none ∨ out_arg = some "") →
      ∀ h : index < results.length,
        get_sp_result_set results index out_arg
          = Except.ok (some (results.get ⟨index, h⟩))) := by
  refine ⟨?_, ?_, ?_⟩
  · intro h
    subst h
    rfl
  · intro first hres o hoa ho
    subst hres
    subst hoa
    have hov : (o != "") = true := by simpa using ho
    constructor
    · intro h
      subst h
      unfold get_sp_result_set
      simp [hov]
    · intro rec0 recs hrec
      subst hrec
      constructor
      · intro hkey
        unfold get_sp_result_set
        simp [hov, hkey]
      · intro hkey h
        unfold get_sp_result_set
        simp [hov, hkey]
        cases index with
        | zero => rfl
        | succ n => simp at h
  · intro hcase h
    have hlen : ¬ results.length < 1 := by omega
    have hget : results.get? index = some (results.get ⟨index, h⟩) :=
      List.get?_eq_get h
    unfold get_sp_result_set
    rw [if_neg hlen]
    rcases hcase with h2 | hnone | hempty
    · have hm : (results.length == 1 && (match out_arg with
          | some o => o != ""
          | Option.none => false)) = false := by
        have hne : (results.length == 1) = false := by
          simp only [beq_eq_false_iff_ne]
          omega
        rw [hne, Bool.false_and]
      rw [hm]
      simp only [Bool.false_eq_true, ite_false]
      rw [hget]
    · subst hnone
      dsimp only
      rw [Bool.and_false]
      simp only [Bool.false_eq_true, ite_false]
      rw [hget]
    · subst hempty
      dsimp only
      rw [show (("" : String) != "") = false from rfl, Bool.and_false]
      simp only [Bool.false_eq_true, ite_false]
      rw [hget]

/-- Witness for the amended C3: two result sets, a truthy out argument, index
`1` — the second result set comes back. -/
theorem claim_C3_amended_result_set_witness :
    get_sp_result_set [[[("a", PyVal.int 1)]], [[("b", PyVal.int 2)]]] 1
      (some "a")
      = Except.ok (some [[("b", PyVal.int 2)]]) :=
  (claim_C3_amended_result_set [[[("a", PyVal.int 1)]], [[("b", PyVal.int 2)]]]
      1 (some "a")).2.2 (Or.inl (by decide)) (by decide)

theorem isUpperA_lowerChar (c : Char) : isUpperA (lowerChar c) = false := by
  unfold lowerChar
  by_cases h : isUpperA c
  · rw [if_pos h]
    unfold isUpperA at h ⊢
    rw [decide_eq_true_eq] at h
    obtain ⟨h1, h2⟩ := h
    obtain ⟨n, hn⟩ : ∃ n, c.toNat = n := ⟨_, rfl⟩
    rw [hn] at h1 h2 ⊢
    interval_cases n <;> decide
  · rw [if_neg h]
    simpa using h

theorem lowerChar_eq_self (c : Char) (h : isUpperA c = false) :
    lowerChar c = c := by
  unfold lowerChar
  rw [h]
  simp

theorem no_upper_map_lowerChar (l : List Char) :
    ∀ c ∈ l.map lowerChar, isUpperA c = false := by
  intro c hc
  rw [List.mem_map] at hc
  obtain ⟨a, _, rfl⟩ := hc
  exact isUpperA_lowerChar a

theorem map_lowerChar_of_no_upper (l : List Char)
    (h : ∀ c ∈ l, isUpperA c = false) : l.map lowerChar = l := by
  induction l with
  | nil => rfl
  | cons a tl ih =>
    simp only [List.map_cons]
    rw [lowerChar_eq_self a (h a (by simp)),
      ih (fun c hc => h c (List.mem_cons_of_mem a hc))]

theorem sub1Go_of_no_upper :
    ∀ (fuel : Nat) (l : List Char),
      (∀ c ∈ l, isUpperA c = false) → sub1Go fuel l = l := by
  intro fuel
  induction fuel with
  | zero =>
    intro l h
    rfl
  | succ n ih =>
    intro l h
    cases l with
    | nil => rfl
    | cons c tl =>
      cases tl with
      | nil => rfl
      | cons u rest =>
        have hu : isUpperA u = false := h u (by simp)
        simp only [sub1Go, hu, Bool.and_false, Bool.false_and,
          Bool.false_eq_true, ite_false]
        rw [ih (u :: rest) (fun c' hc' => h c' (List.mem_cons_of_mem c hc'))]

theorem sub2_of_no_upper :
    ∀ (l : List Char), (∀ c ∈ l, isUpperA c = false) → sub2 l = l := by
  intro l
  induction l with
  | nil =>
    intro h
    rfl
  | cons c tl ih =>
    intro h
    cases tl with
    | nil => rfl
    | cons u rest =>
      have hu : isUpperA u = false := h u (by simp)
      simp only [sub2, hu, Bool.and_false, Bool.false_eq_true, ite_false]
      rw [ih (fun c' hc' => h c' (List.mem_cons_of_mem c hc'))]

theorem normalize_no_upper (name : String) :
    ∀ c ∈ (normalize_column_name name).data, isUpperA c = false := by
  intro c hc
  exact no_upper_map_lowerChar _ c hc

/-- C5: `normalize_column_name` is idempotent — normalizing twice equals
normalizing once (the output has no ASCII capitals, so neither regex matches
on a second pass and lowering is the identity). -/
theorem claim_C5_normalize_idempotent (x : String) :
    normalize_column_name (normalize_column_name x)
      = normalize_column_name x := by
  have hnu : ∀ c ∈ (normalize_column_name x).data, isUpperA c = false :=
    normalize_no_upper x
  have h1 : sub1 (normalize_column_name x).data
      = (normalize_column_name x).data := by
    unfold sub1
    exact sub1Go_of_no_upper _ _ hnu
  have h2 : sub2 (normalize_column_name x).data
      = (normalize_column_name x).data := sub2_of_no_upper _ hnu
  have h3 : (normalize_column_name x).data.map lowerChar
      = (normalize_column_name x).data := map_lowerChar_of_no_upper _ hnu
  show (⟨(sub2 (sub1 (normalize_column_name x).data)).map lowerChar⟩ : String)
      = normalize_column_name x
  rw [h1, h2, h3]

theorem find?_map_overwrite (d : Dict) (k : String) (v0 : PyVal)
    (h : (List.any d fun p => p.1 == k) = true) :
    List.find? (fun p => p.1 == k)
        (List.map (fun p => if p.1 == k then (k, v0) else p) d)
      = some (k, v0) := by
  induction d with
  | nil => simp at h
  | cons q tl ih =>
    simp only [List.any_cons, Bool.or_eq_true] at h
    simp only [List.map_cons, List.find?_cons]
    by_cases hq : (q.1 == k) = true
    · rw [if_pos hq]
      simp
    · rw [if_neg hq]
      simp only [show (q.1 == k) = false from by simpa using hq]
      exact ih (h.resolve_left hq)

theorem find?_map_other (d : Dict) (k0 k : String) (v0 : PyVal)
    (hk : (k0 == k) = false) :
    List.find? (fun p => p.1 == k)
        (List.map (fun p => if p.1 == k0 then (k0, v0) else p) d)
      = List.find? (fun p => p.1 == k) d := by
  induction d with
  | nil => rfl
  | cons q tl ih =>
    simp only [List.map_cons, List.find?_cons]
    by_cases hq : (q.1 == k0) = true
    · rw [if_pos hq]
      have he : q.1 = k0 := by simpa using hq
      simp only [he, hk]
      exact ih
    · rw [if_neg hq]
      cases hqk : q.1 == k
      · simp only [hqk]
        exact ih
      · simp only [hqk]

theorem dictGet?_dictInsert (d : Dict) (k0 : String) (v0 : PyVal)
    (k : String) :
    dictGet? (dictInsert d k0 v0) k
      = if k = k0 then some v0 else dictGet? d k := by
  unfold dictInsert dictGet?
  by_cases hk : k = k0
  · subst hk
    rw [if_pos rfl]
    by_cases hmem : (List.any d fun p => p.1 == k) = true
    · rw [if_pos hmem, find?_map_overwrite d k v0 hmem]
      rfl
    · rw [if_neg hmem, List.find?_append]
      have h1 : List.find? (fun p => p.1 == k) d = Option.none := by
        rw [List.find?_eq_none]
        intro x hx hpx
        exact hmem (List.any_eq_true.mpr ⟨x, hx, hpx⟩)
      rw [h1]
      simp
  · rw [if_neg hk]
    have hk0 : (k0 == k) = false := by
      simp only [beq_eq_false_iff_ne]
      exact fun h => hk h.symm
    by_cases hmem : (List.any d fun p => p.1 == k0) = true
    · rw [if_pos hmem, find?_map_other d k0 k v0 hk0]
    · rw [if_neg hmem, List.find?_append]
      have h2 : List.find? (fun p => p.1 == k) [(k0, v0)] = Option.none := by
        simp [hk0]
      rw [h2]
      simp

theorem dictGet?_foldl (ps : List (String × PyVal)) :
    ∀ (d : Dict) (k : String),
      dictGet? (ps.foldl (fun d p => dictInsert d p.1 p.2) d) k
        = (match ps.reverse.find? (fun p => p.1 == k) with
           | some q => some q.2
           | Option.none => dictGet? d k) := by
  induction ps with
  | nil =>
    intro d k
    rfl
  | cons q ps ih =>
    intro d k
    rw [List.foldl_cons, ih, List.reverse_cons, List.find?_append]
    cases hfind : ps.reverse.find? (fun p => p.1 == k) with
    | some r => simp
    | none =>
      simp only [Option.none_or]
      rw [dictGet?_dictInsert]
      by_cases hq : (q.1 == k) = true
      · have hqe : k = q.1 := by
          have := (beq_iff_eq (a := q.1) (b := k)).mp hq
          exact this.symm
        rw [if_pos hqe]
        simp [List.find?, hq]
      · have hqe : ¬ (k = q.1) := by
          intro h
          exact hq (by simp [h])
        rw [if_neg hqe]
        simp [List.find?, hq]

theorem dictGet?_dictOfPairs (ps : List (String × PyVal)) (k : String) :
    dictGet? (dictOfPairs ps) k
      = (match ps.reverse.find? (fun p => p.1 == k) with
         | some q => some q.2
         | Option.none => Option.none) := by
  unfold dictOfPairs
  rw [dictGet?_foldl]
  cases ps.reverse.find? (fun p => p.1 == k) <;> rfl

theorem dictHasKey_dictInsert (d : Dict) (k0 : String) (v0 : PyVal)
    (k : String) :
    dictHasKey (dictInsert d k0 v0) k = (dictHasKey d k || (k0 == k)) := by
  unfold dictInsert dictHasKey
  by_cases hmem : (List.any d fun p => p.1 == k0) = true
  · rw [if_pos hmem]
    have hcong : ∀ p : String × PyVal,
        ((if p.1 == k0 then (k0, v0) else p).1 == k) = (p.1 == k) := by
      intro p
      by_cases hp : (p.1 == k0) = true
      · rw [if_pos hp]
        have he : p.1 = k0 := by simpa using hp
        rw [he]
      · rw [if_neg hp]
    rw [List.any_map]
    simp only [Function.comp_def, hcong]
    by_cases hk : (k0 == k) = true
    · have he : k = k0 := by
        have := (beq_iff_eq (a := k0) (b := k)).mp hk
        exact this.symm
      subst he
      simp [hmem]
    · have hkf : (k0 == k) = false := by simpa using hk
      rw [hkf, Bool.or_false]
  · rw [if_neg hmem]
    simp [List.any_append]

theorem dictHasKey_dictOfPairs (ps : List (String × PyVal)) (k : String) :
    dictHasKey (dictOfPairs ps) k = ps.any (fun p => p.1 == k) := by
  induction ps using List.reverseRecOn with
  | nil => rfl
  | append_singleton ps p ih =>
    rw [dictOfPairs_append, dictHasKey_dictInsert, ih, List.any_append]
    simp

theorem dictLen_dictOfPairs_lt (ps : List (String × PyVal))
    (hdup : ¬ (ps.map Prod.fst).Nodup) :
    dictLen (dictOfPairs ps) < ps.length := by
  induction ps using List.reverseRecOn with
  | nil => simp at hdup
  | append_singleton ps p ih =>
    rw [dictOfPairs_append, dictLen_dictInsert]
    by_cases hnd : (ps.map Prod.fst).Nodup
    · have hmem : p.1 ∈ ps.map Prod.fst := by
        by_contra hmem
        apply hdup
        rw [List.map_append]
        simp [List.nodup_append, hnd, hmem]
      have hkey : dictHasKey (dictOfPairs ps) p.1 = true := by
        rw [dictHasKey_dictOfPairs, List.any_eq_true]
        rw [List.mem_map] at hmem
        obtain ⟨q, hq, hq1⟩ := hmem
        exact ⟨q, hq, by simp [hq1]⟩
      rw [if_pos hkey]
      have hle := dictLen_dictOfPairs_le ps
      simp only [List.length_append, List.length_cons, List.length_nil]
      omega
    · have hlt := ih hnd
      have hle := dictLen_dictOfPairs_le ps
      split <;>
        (simp only [List.length_append, List.length_cons, List.length_nil]
         omega)

theorem find?_reverse_concat_last (l₁ l₂ : List (String × PyVal))
    (kq : String) (vq : PyVal) (hafter : ∀ r ∈ l₂, r.1 ≠ kq) :
    (l₁ ++ (kq, vq) :: l₂).reverse.find? (fun p => p.1 == kq)
      = some (kq, vq) := by
  rw [List.reverse_append, List.find?_append]
  have h2 : ((kq, vq) :: l₂).reverse.find? (fun p => p.1 == kq)
      = some (kq, vq) := by
    rw [List.reverse_cons, List.find?_append]
    have h3 : l₂.reverse.find? (fun p => p.1 == kq) = Option.none := by
      rw [List.find?_eq_none]
      intro x hx
      simp [hafter x (List.mem_reverse.mp hx)]
    rw [h3]
    simp
  rw [h2]
  simp

theorem not_nodup_middle {α : Type} (x : α) (l₁ l₂ l₃ : List α) :
    ¬ (l₁ ++ x :: (l₂ ++ x :: l₃)).Nodup := by
  intro h
  have h2 : (x :: (l₂ ++ x :: l₃)).Nodup :=
    (List.sublist_append_right l₁ _).nodup h
  have h3 := (List.nodup_cons.mp h2).1
  exact h3 (List.mem_append_right _ (List.mem_cons_self x _))

/-- C9: when two columns of the schema lowercase to the same key (`a` earlier,
`b` later, `b` the last occurrence of the key) and the row matches the schema
in length, `result_as_dict` keeps the later column's value for that key —
overwriting the earlier column's — and the record has strictly fewer entries
than the schema. -/
theorem claim_C9_duplicate_keys (s₁ s₂ s₃ : List String) (a b : String)
    (r₁ r₂ r₃ : List PyVal) (va vb : PyVal)
    (hl₁ : r₁.length = s₁.length) (hl₂ : r₂.length = s₂.length)
    (hl₃ : r₃.length = s₃.length)
    (hkey : lowerStr a = lowerStr b)
    (hafter : ∀ c ∈ s₃, lowerStr c ≠ lowerStr b) :
    dictGet? (result_as_dict (s₁ ++ a :: (s₂ ++ b :: s₃))
        (r₁ ++ va :: (r₂ ++ vb :: r₃))) (lowerStr b) = some vb ∧
    dictLen (result_as_dict (s₁ ++ a :: (s₂ ++ b :: s₃))
        (r₁ ++ va :: (r₂ ++ vb :: r₃)))
      < (s₁ ++ a :: (s₂ ++ b :: s₃)).length := by
  have hzip : List.zip ((s₁ ++ a :: (s₂ ++ b :: s₃)).map lowerStr)
      (r₁ ++ va :: (r₂ ++ vb :: r₃))
      = (List.zip (s₁.map lowerStr) r₁ ++ (lowerStr a, va) ::
          List.zip (s₂.map lowerStr) r₂) ++ (lowerStr b, vb) ::
          List.zip (s₃.map lowerStr) r₃ := by
    rw [List.map_append, List.map_cons, List.map_append, List.map_cons]
    rw [List.zip_append (by simp [hl₁]), List.zip_cons_cons,
      List.zip_append (by simp [hl₂]), List.zip_cons_cons]
    simp [List.append_assoc]
  unfold result_as_dict
  rw [hzip]
  constructor
  · rw [dictGet?_dictOfPairs]
    rw [find?_reverse_concat_last _ _ (lowerStr b) vb ?hafter]
    case hafter =>
      intro r hr
      have hr2 : (r.1, r.2) ∈ List.zip (s₃.map lowerStr) r₃ := by simpa using hr
      obtain ⟨h1, _⟩ := List.of_mem_zip hr2
      rw [List.mem_map] at h1
      obtain ⟨c, hc, hce⟩ := h1
      rw [← hce]
      exact hafter c hc
  · have hdup : ¬ (((List.zip (s₁.map lowerStr) r₁ ++ (lowerStr a, va) ::
        List.zip (s₂.map lowerStr) r₂) ++ (lowerStr b, vb) ::
        List.zip (s₃.map lowerStr) r₃).map Prod.fst).Nodup := by
      rw [List.map_append, List.map_cons, List.map_append, List.map_cons]
      rw [List.map_fst_zip _ _ (by simp [hl₁]),
        List.map_fst_zip _ _ (by simp [hl₂]),
        List.map_fst_zip _ _ (by simp [hl₃])]
      rw [hkey]
      intro hnd
      apply not_nodup_middle (lowerStr b) (s₁.map lowerStr)
        (s₂.map lowerStr) (s₃.map lowerStr)
      simpa [List.append_assoc] using hnd
    have hlt := dictLen_dictOfPairs_lt _ hdup
    have hlen : ((List.zip (s₁.map lowerStr) r₁ ++ (lowerStr a, va) ::
        List.zip (s₂.map lowerStr) r₂) ++ (lowerStr b, vb) ::
        List.zip (s₃.map lowerStr) r₃).length
        = (s₁ ++ a :: (s₂ ++ b :: s₃)).length := by
      simp [List.length_append, List.length_cons, List.length_zip,
        List.length_map, hl₁, hl₂, hl₃]
    omega

/-- Witness for C9: schema `["A", "a"]` (both normalize-lower to `"a"`) with
row `[1, 2]` — the record keeps `2` for `"a"` and has one entry, fewer than
the two schema columns. -/
theorem claim_C9_duplicate_keys_witness :
    dictGet? (result_as_dict ["A", "a"] [PyVal.int 1, PyVal.int 2]) "a"
      = some (PyVal.int 2) ∧
    dictLen (result_as_dict ["A", "a"] [PyVal.int 1, PyVal.int 2]) < 2 :=
  claim_C9_duplicate_keys [] [] [] "A" "a" [] [] [] (PyVal.int 1)
    (PyVal.int 2) rfl rfl rfl (by decide) (by intro c hc; cases hc)

end MssqlDb
